import Mathlib

/-!
Verification development for the VeriKicks upload/proxy/results flow.

The source consists of three Next.js proxy route handlers (category
analysis, aggregation, health), an upload form page whose `submitUpload`
drives a three-way analysis fan-out plus an aggregation call and then
navigates with URL-encoded JSON payloads, and a results page that decodes
those payloads and derives a headline verdict.

The embedding models JSON values as an inductive `Json` (a fragment with
integer numerals and without insignificant whitespace, matching every value
this code produces), `JSON.stringify`/`JSON.parse` as an executable
printer/parser pair, and `encodeURIComponent`/`decodeURIComponent` on the
ASCII fragment (multi-byte UTF-8 escape sequences are outside the modelled
fragment; every string this flow serializes is ASCII under the
well-formedness predicate used below).
-/

namespace Threads
/-- JavaScript truthiness of a `string | null` value, as returned by
`FormData.get` / `URLSearchParams.get`: `null` and the empty string are
falsy. -/
def jsTruthyStr : Option String → Bool
  | none => false
  | some s => s ≠ ""

/-- JSON values. Numbers are restricted to integers: every numeric value the
repository itself produces or serializes is printed without a fraction. -/
inductive Json where
  | null
  | bool (b : Bool)
  | num (n : Int)
  | str (s : String)
  | arr (elems : List Json)
  | obj (fields : List (String × Json))
deriving Repr

mutual

/-- Decidable equality on `Json`, written by hand because the nested
inductive defeats the automatic derivation. -/
def decEqJson : (a b : Json) → Decidable (a = b)
  | .null, .null => isTrue rfl
  | .null, .bool _ => isFalse (fun h => Json.noConfusion h)
  | .null, .num _ => isFalse (fun h => Json.noConfusion h)
  | .null, .str _ => isFalse (fun h => Json.noConfusion h)
  | .null, .arr _ => isFalse (fun h => Json.noConfusion h)
  | .null, .obj _ => isFalse (fun h => Json.noConfusion h)
  | .bool _, .null => isFalse (fun h => Json.noConfusion h)
  | .bool x, .bool y =>
    match decEq x y with
    | isTrue h => isTrue (by rw [h])
    | isFalse h => isFalse (fun hh => h (Json.bool.inj hh))
  | .bool _, .num _ => isFalse (fun h => Json.noConfusion h)
  | .bool _, .str _ => isFalse (fun h => Json.noConfusion h)
  | .bool _, .arr _ => isFalse (fun h => Json.noConfusion h)
  | .bool _, .obj _ => isFalse (fun h => Json.noConfusion h)
  | .num _, .null => isFalse (fun h => Json.noConfusion h)
  | .num _, .bool _ => isFalse (fun h => Json.noConfusion h)
  | .num x, .num y =>
    match decEq x y with
    | isTrue h => isTrue (by rw [h])
    | isFalse h => isFalse (fun hh => h (Json.num.inj hh))
  | .num _, .str _ => isFalse (fun h => Json.noConfusion h)
  | .num _, .arr _ => isFalse (fun h => Json.noConfusion h)
  | .num _, .obj _ => isFalse (fun h => Json.noConfusion h)
  | .str _, .null => isFalse (fun h => Json.noConfusion h)
  | .str _, .bool _ => isFalse (fun h => Json.noConfusion h)
  | .str _, .num _ => isFalse (fun h => Json.noConfusion h)
  | .str x, .str y =>
    match decEq x y with
    | isTrue h => isTrue (by rw [h])
    | isFalse h => isFalse (fun hh => h (Json.str.inj hh))
  | .str _, .arr _ => isFalse (fun h => Json.noConfusion h)
  | .str _, .obj _ => isFalse (fun h => Json.noConfusion h)
  | .arr _, .null => isFalse (fun h => Json.noConfusion h)
  | .arr _, .bool _ => isFalse (fun h => Json.noConfusion h)
  | .arr _, .num _ => isFalse (fun h => Json.noConfusion h)
  | .arr _, .str _ => isFalse (fun h => Json.noConfusion h)
  | .arr xs, .arr ys =>
    match decEqJsonList xs ys with
    | isTrue h => isTrue (by rw [h])
    | isFalse h => isFalse (fun hh => h (Json.arr.inj hh))
  | .arr _, .obj _ => isFalse (fun h => Json.noConfusion h)
  | .obj _, .null => isFalse (fun h => Json.noConfusion h)
  | .obj _, .bool _ => isFalse (fun h => Json.noConfusion h)
  | .obj _, .num _ => isFalse (fun h => Json.noConfusion h)
  | .obj _, .str _ => isFalse (fun h => Json.noConfusion h)
  | .obj _, .arr _ => isFalse (fun h => Json.noConfusion h)
  | .obj xs, .obj ys =>
    match decEqJsonFields xs ys with
    | isTrue h => isTrue (by rw [h])
    | isFalse h => isFalse (fun hh => h (Json.obj.inj hh))

/-- Decidable equality on lists of `Json`. -/
def decEqJsonList : (a b : List Json) → Decidable (a = b)
  | [], [] => isTrue rfl
  | [], _ :: _ => isFalse (fun h => List.noConfusion h)
  | _ :: _, [] => isFalse (fun h => List.noConfusion h)
  | x :: xs, y :: ys =>
    match decEqJson x y with
    | isFalse h => isFalse (fun hh => h (List.cons.inj hh).1)
    | isTrue h1 =>
      match decEqJsonList xs ys with
      | isTrue h2 => isTrue (by rw [h1, h2])
      | isFalse h2 => isFalse (fun hh => h2 (List.cons.inj hh).2)

/-- Decidable equality on association lists of `Json`. -/
def decEqJsonFields : (a b : List (String × Json)) → Decidable (a = b)
  | [], [] => isTrue rfl
  | [], _ :: _ => isFalse (fun h => List.noConfusion h)
  | _ :: _, [] => isFalse (fun h => List.noConfusion h)
  | (k1, v1) :: xs, (k2, v2) :: ys =>
    match decEq k1 k2 with
    | isFalse h => isFalse (fun hh => h (congrArg Prod.fst (List.cons.inj hh).1))
    | isTrue hk =>
      match decEqJson v1 v2 with
      | isFalse h => isFalse (fun hh => h (congrArg Prod.snd (List.cons.inj hh).1))
      | isTrue hv =>
        match decEqJsonFields xs ys with
        | isTrue h2 => isTrue (by rw [hk, hv, h2])
        | isFalse h2 => isFalse (fun hh => h2 (List.cons.inj hh).2)

end

instance : DecidableEq Json := decEqJson

/-- JavaScript truthiness of a JSON value. -/
def jsTruthy : Json → Bool
  | .null => false
  | .bool b => b
  | .num n => n ≠ 0
  | .str s => s ≠ ""
  | .arr _ => true
  | .obj _ => true

/-- JavaScript truthiness of a possibly-`undefined` JSON value. -/
def jsTruthyOpt : Option Json → Bool
  | none => false
  | some j => jsTruthy j

/-- Property lookup on a parsed JSON object: `JSON.parse` keeps the last
occurrence of a duplicated key, so the lookup returns the last match. -/
def lookupField : List (String × Json) → String → Option Json
  | [], _ => none
  | (k', v) :: rest, k =>
    match lookupField rest k with
    | some w => some w
    | none => if k' = k then some v else none

/-- JavaScript property access `d[k]` on a JSON value that is not `null`
(`null[k]` throws a TypeError; call sites that can see `null` handle it
explicitly). Properties of non-objects read as `undefined` (`none`). -/
def jsProp (d : Json) (k : String) : Option Json :=
  match d with
  | .obj fs => lookupField fs k
  | _ => none

/-! Hexadecimal digits, for percent-escapes. -/

/-- Uppercase hexadecimal digit character of `n < 16`. -/
def hexDig (n : Nat) : Char :=
  if n < 10 then Char.ofNat (48 + n) else Char.ofNat (55 + n)

/-- Value of a hexadecimal digit character, accepting both cases. -/
def hexVal (c : Char) : Option Nat :=
  if 48 ≤ c.toNat ∧ c.toNat ≤ 57 then some (c.toNat - 48)
  else if 65 ≤ c.toNat ∧ c.toNat ≤ 70 then some (c.toNat - 55)
  else if 97 ≤ c.toNat ∧ c.toNat ≤ 102 then some (c.toNat - 87)
  else none

/-- Characters `encodeURIComponent` leaves unescaped:
`A-Z a-z 0-9 - _ . ! ~ * ( )` and the apostrophe (code 39). -/
def uriUnreserved (c : Char) : Bool :=
  let n := c.toNat
  (48 ≤ n && n ≤ 57) || (65 ≤ n && n ≤ 90) || (97 ≤ n && n ≤ 122) ||
  n == 45 || n == 95 || n == 46 || n == 33 || n == 126 || n == 42 ||
  n == 39 || n == 40 || n == 41

/-- Character-level model of `encodeURIComponent` on the ASCII fragment:
unreserved characters pass through, any other character becomes `%XY`. -/
def encodeChars : List Char → List Char
  | [] => []
  | c :: cs =>
    if uriUnreserved c then c :: encodeChars cs
    else '%' :: hexDig (c.toNat / 16) :: hexDig (c.toNat % 16) :: encodeChars cs

mutual

/-- Character-level model of `decodeURIComponent` on the ASCII fragment:
`%XY` escapes decode to their byte when it is below 128 (a lead byte of a
multi-byte UTF-8 sequence is outside the modelled fragment), a malformed
escape is a URIError (`none`). -/
def decodeChars : List Char → Option (List Char)
  | [] => some []
  | c :: cs =>
    if c = '%' then decodeEscape cs
    else (decodeChars cs).map (fun t => c :: t)

/-- Decode the two hex digits following a `%` and continue. -/
def decodeEscape : List Char → Option (List Char)
  | c1 :: c2 :: cs' =>
    match hexVal c1, hexVal c2 with
    | some h, some l =>
      if h * 16 + l < 128 then
        (decodeChars cs').map (fun t => Char.ofNat (h * 16 + l) :: t)
      else none
    | _, _ => none
  | _ => none

end

/-- Model of `encodeURIComponent`. -/
def encodeURIComponent (s : String) : String := String.mk (encodeChars s.toList)

/-- Model of `decodeURIComponent`; `none` is a thrown URIError. -/
def decodeURIComponent (s : String) : Option String :=
  (decodeChars s.toList).map String.mk

/-! Decimal numerals, as printed by JavaScript for integral numbers. -/

/-- Digit characters of `n`, most significant first, by repeated division;
the fuel argument makes the recursion structural so that the kernel can
evaluate it (`fuel ≥ n` suffices). -/
def natCharsAux : Nat → Nat → List Char
  | 0, _ => []
  | _ + 1, 0 => []
  | fuel + 1, m + 1 =>
    natCharsAux fuel ((m + 1) / 10) ++ [Nat.digitChar ((m + 1) % 10)]

/-- Decimal digit characters of `n`, most significant first. -/
def natChars (n : Nat) : List Char :=
  if n = 0 then ['0'] else natCharsAux n n

/-- Decimal representation of an integer, as JavaScript prints it. -/
def intChars : Int → List Char
  | .ofNat n => natChars n
  | .negSucc n => '-' :: natChars (n + 1)

/-- The left brace character, code point 123. -/
def lbrace : Char := Char.ofNat 123

/-- The right brace character, code point 125. -/
def rbrace : Char := Char.ofNat 125

/-- Lowercase hexadecimal digit character of `n < 16`, used in `\u00XY`
escapes. -/
def hexDigLower (n : Nat) : Char :=
  if n < 10 then Char.ofNat (48 + n) else Char.ofNat (87 + n)

/-- How `JSON.stringify` escapes one character inside a string literal. -/
def escapeChar (c : Char) : List Char :=
  if c = '"' then ['\\', '"']
  else if c = '\\' then ['\\', '\\']
  else if c = Char.ofNat 8 then ['\\', 'b']
  else if c = Char.ofNat 9 then ['\\', 't']
  else if c = Char.ofNat 10 then ['\\', 'n']
  else if c = Char.ofNat 12 then ['\\', 'f']
  else if c = Char.ofNat 13 then ['\\', 'r']
  else if c.toNat < 32 then
    ['\\', 'u', '0', '0', hexDigLower (c.toNat / 16), hexDigLower (c.toNat % 16)]
  else [c]

/-- Escape every character of a string body. -/
def escapeStr : List Char → List Char
  | [] => []
  | c :: cs => escapeChar c ++ escapeStr cs

/-- The keyword of the JSON null literal. -/
def nullLit : String := "null"

/-- The keyword of the JSON true literal. -/
def trueLit : String := "true"

/-- The keyword of the JSON false literal. -/
def falseLit : String := "false"

mutual

/-- Character-level model of `JSON.stringify` (no replacer, no spacing):
the exact character stream the upload page puts into the URL. -/
def jchars : Json → List Char
  | .null => nullLit.toList
  | .bool true => trueLit.toList
  | .bool false => falseLit.toList
  | .num n => intChars n
  | .str s => '"' :: (escapeStr s.toList ++ ['"'])
  | .arr [] => ['[', ']']
  | .arr (v :: vs) => '[' :: (jchars v ++ jcharsArrRest vs)
  | .obj [] => [lbrace, rbrace]
  | .obj (kv :: kvs) => lbrace :: (jcharsMember kv ++ jcharsObjRest kvs)

/-- Remaining elements of an array after the first, then the close bracket. -/
def jcharsArrRest : List Json → List Char
  | [] => [']']
  | v :: vs => ',' :: (jchars v ++ jcharsArrRest vs)

/-- One `"key":value` member of an object. -/
def jcharsMember : String × Json → List Char
  | (k, v) => '"' :: (escapeStr k.toList ++ ('"' :: ':' :: jchars v))

/-- Remaining members of an object after the first, then the close brace. -/
def jcharsObjRest : List (String × Json) → List Char
  | [] => [rbrace]
  | kv :: kvs => ',' :: (jcharsMember kv ++ jcharsObjRest kvs)

end

/-- String-level model of `JSON.stringify`. -/
def stringifyJson (v : Json) : String := String.mk (jchars v)

/-! Plain characters: the fragment of strings for which serialization needs
no escapes and stays within ASCII. Every string constant the repository
serializes is plain. -/

/-- Printable ASCII character other than the two that `JSON.stringify`
escapes. -/
def plainChar (c : Char) : Bool :=
  32 ≤ c.toNat && c.toNat < 128 && !(c = '"') && !(c = '\\')

/-- String made of plain characters. -/
def plainStr (s : String) : Bool := s.toList.all plainChar

mutual

/-- JSON value whose strings and keys are all plain. -/
def plainJson : Json → Bool
  | .null => true
  | .bool _ => true
  | .num _ => true
  | .str s => plainStr s
  | .arr vs => plainArr vs
  | .obj kvs => plainObj kvs

/-- All elements plain. -/
def plainArr : List Json → Bool
  | [] => true
  | v :: vs => plainJson v && plainArr vs

/-- All keys and values plain. -/
def plainObj : List (String × Json) → Bool
  | [] => true
  | kv :: kvs => plainStr kv.1 && plainJson kv.2 && plainObj kvs

end

/-! Model of `JSON.parse` on the same fragment (integer numerals, no
insignificant whitespace): an executable recursive-descent parser. A parse
failure (`none`) models a thrown SyntaxError. -/

/-- Decimal digit character test. -/
def isDigitChar (c : Char) : Bool := 48 ≤ c.toNat && c.toNat ≤ 57

/-- Consume a maximal run of decimal digits, returning their values. -/
def takeDigits : List Char → List Nat × List Char
  | [] => ([], [])
  | c :: cs =>
    if isDigitChar c then
      let p := takeDigits cs
      ((c.toNat - 48) :: p.1, p.2)
    else ([], c :: cs)

/-- Numeric value of a big-endian digit list. -/
def digitsVal (ds : List Nat) : Nat := ds.foldl (fun a d => a * 10 + d) 0

/-- Translate a single-character escape (everything but `\u`). -/
def unescapeChar (e : Char) : Option Char :=
  if e = '"' then some '"'
  else if e = '\\' then some '\\'
  else if e = '/' then some '/'
  else if e = 'b' then some (Char.ofNat 8)
  else if e = 't' then some (Char.ofNat 9)
  else if e = 'n' then some (Char.ofNat 10)
  else if e = 'f' then some (Char.ofNat 12)
  else if e = 'r' then some (Char.ofNat 13)
  else none

mutual

/-- Parse the body of a string literal after the opening quote, up to and
including the closing quote. -/
def parseStrChars : List Char → Option (List Char × List Char)
  | [] => none
  | c :: cs =>
    if c = '"' then some ([], cs)
    else if c = '\\' then parseStrEscape cs
    else if c.toNat < 32 then none
    else (parseStrChars cs).map (fun p => (c :: p.1, p.2))
termination_by structural l => l

/-- Parse the rest of a string literal after a backslash. -/
def parseStrEscape : List Char → Option (List Char × List Char)
  | [] => none
  | e :: cs' =>
    if e = 'u' then parseStrUnicode cs'
    else
      match unescapeChar e with
      | some u => (parseStrChars cs').map (fun p => (u :: p.1, p.2))
      | none => none
termination_by structural l => l

/-- Parse the four hex digits of a `\u` escape and the rest of the string
literal. Escapes in the surrogate range are outside the modelled
fragment. -/
def parseStrUnicode : List Char → Option (List Char × List Char)
  | a :: b :: d :: f :: cs'' =>
    (match hexVal a, hexVal b, hexVal d, hexVal f with
     | some ha, some hb, some hd, some hf =>
       let n := ((ha * 16 + hb) * 16 + hd) * 16 + hf
       if hn : n < 55296 then
         (parseStrChars cs'').map
           (fun p => (Char.ofNatAux n (by omega) :: p.1, p.2))
       else none
     | _, _, _, _ => none)
  | _ => none
termination_by structural l => l

end

/-- Match an exact literal tail (the remainder of `null`, `true`, `false`)
and produce the given value. -/
def parseExact : List Char → Json → List Char → Option (Json × List Char)
  | [], v, input => some (v, input)
  | _ :: _, _, [] => none
  | e :: es, v, c :: cs => if c = e then parseExact es v cs else none

/-- Parse the digits of a negative numeral after the minus sign. -/
def parseNeg (cs : List Char) : Option (Json × List Char) :=
  match takeDigits cs with
  | ([], _) => none
  | (d :: ds, r) => some (.num (-(digitsVal (d :: ds) : Int)), r)

mutual

/-- Parse one JSON value. The fuel argument only bounds recursion depth;
`fuel = length + 1` is always sufficient because every nested call consumes
at least one character first. -/
def parseVal : Nat → List Char → Option (Json × List Char)
  | 0, _ => none
  | _ + 1, [] => none
  | fuel + 1, c :: cs =>
    if c = 'n' then parseExact ['u', 'l', 'l'] Json.null cs
    else if c = 't' then parseExact ['r', 'u', 'e'] (Json.bool true) cs
    else if c = 'f' then parseExact ['a', 'l', 's', 'e'] (Json.bool false) cs
    else if c = '"' then
      (parseStrChars cs).map (fun p => (.str (String.mk p.1), p.2))
    else if c = '-' then parseNeg cs
    else if isDigitChar c then
      some (.num (digitsVal (takeDigits (c :: cs)).1), (takeDigits (c :: cs)).2)
    else if c = '[' then parseArrBody fuel cs
    else if c = lbrace then parseObjBody fuel cs
    else none
termination_by structural fuel _ => fuel

/-- Parse the inside of an array after the open bracket. -/
def parseArrBody : Nat → List Char → Option (Json × List Char)
  | 0, _ => none
  | _ + 1, [] => none
  | fuel + 1, c2 :: r2 =>
    if c2 = ']' then some (.arr [], r2)
    else
      match parseVal fuel (c2 :: r2) with
      | some (v, r) => (parseArrRest fuel r).map (fun p => (.arr (v :: p.1), p.2))
      | none => none
termination_by structural fuel _ => fuel

/-- After an array element: a comma and another element, or the close
bracket. -/
def parseArrRest : Nat → List Char → Option (List Json × List Char)
  | 0, _ => none
  | _ + 1, [] => none
  | fuel + 1, c :: cs =>
    if c = ']' then some ([], cs)
    else if c = ',' then
      match parseVal fuel cs with
      | some (v, r) => (parseArrRest fuel r).map (fun p => (v :: p.1, p.2))
      | none => none
    else none
termination_by structural fuel _ => fuel

/-- Parse the inside of an object after the open brace. -/
def parseObjBody : Nat → List Char → Option (Json × List Char)
  | 0, _ => none
  | _ + 1, [] => none
  | fuel + 1, c2 :: r2 =>
    if c2 = rbrace then some (.obj [], r2)
    else
      match parseMember fuel (c2 :: r2) with
      | some (kv, r) => (parseObjRest fuel r).map (fun p => (.obj (kv :: p.1), p.2))
      | none => none
termination_by structural fuel _ => fuel

/-- One `"key":value` member of an object. -/
def parseMember : Nat → List Char → Option ((String × Json) × List Char)
  | 0, _ => none
  | _ + 1, [] => none
  | fuel + 1, c :: cs =>
    if c = '"' then
      match parseStrChars cs with
      | some (k, r) => parseMemberVal fuel (String.mk k) r
      | none => none
    else none
termination_by structural fuel _ => fuel

/-- After an object key: a colon and the member's value. -/
def parseMemberVal : Nat → String → List Char → Option ((String × Json) × List Char)
  | 0, _, _ => none
  | _ + 1, _, [] => none
  | fuel + 1, k, c :: cs =>
    if c = ':' then (parseVal fuel cs).map (fun p => ((k, p.1), p.2))
    else none
termination_by structural fuel _ _ => fuel

/-- After an object member: a comma and another member, or the close
brace. -/
def parseObjRest : Nat → List Char → Option (List (String × Json) × List Char)
  | 0, _ => none
  | _ + 1, [] => none
  | fuel + 1, c :: cs =>
    if c = rbrace then some ([], cs)
    else if c = ',' then
      match parseMember fuel cs with
      | some (kv, r) => (parseObjRest fuel r).map (fun p => (kv :: p.1, p.2))
      | none => none
    else none
termination_by structural fuel _ => fuel

end

/-- String-level model of `JSON.parse`: the whole input must be one value. -/
def jsonParseStr (s : String) : Option Json :=
  match parseVal (s.length + 1) s.toList with
  | some (v, []) => some v
  | _ => none

/-! Round-trip of the printer and the parser, for plain values. -/

/-- Input that does not begin with a decimal digit, so a numeral parse
stops exactly at its end. -/
def noDigitStart : List Char → Prop
  | [] => True
  | c :: _ => isDigitChar c = false

/-- Big-endian decimal digits of a natural number. -/
def natDigitsBE (n : Nat) : List Nat :=
  if n = 0 then [0] else (Nat.digits 10 n).reverse

mutual

/-- Fuel sufficient for `parseVal` to parse the printed form of `v`. -/
def jfuel : Json → Nat
  | .null | .bool _ | .num _ | .str _ => 1
  | .arr [] => 2
  | .arr (x :: xs) => 2 + max (jfuel x) (jfuelA xs)
  | .obj [] => 2
  | .obj ((_, v) :: kvs) => 2 + max (2 + jfuel v) (jfuelO kvs)

/-- Fuel sufficient for `parseArrRest` on the printed remaining elements. -/
def jfuelA : List Json → Nat
  | [] => 1
  | x :: xs => 1 + max (jfuel x) (jfuelA xs)

/-- Fuel sufficient for `parseObjRest` on the printed remaining members. -/
def jfuelO : List (String × Json) → Nat
  | [] => 1
  | (_, v) :: kvs => 1 + max (2 + jfuel v) (jfuelO kvs)

end

/-! Application layer: the proxy route handlers, the results page, and the
upload submission flow. -/

/-- Uploaded file as the route sees it: name, bytes, MIME type. -/
structure FileVal where
  name : String
  content : List Nat
  mimeType : String
deriving DecidableEq, Repr

/-- Outcome of a proxy's outbound `fetch` together with its body readers:
either the fetch rejects (with the thrown error's `message`), or a response
arrives with an HTTP status and a raw body text; `parseFailMsg` is the
`message` of the error `res.json()` rejects with when the body is not valid
JSON. -/
inductive BackendBehavior where
  | throwsMsg (message : String)
  | respond (status : Nat) (body : String) (parseFailMsg : String)
deriving DecidableEq, Repr

/-- The uniform `\x7b error: msg \x7d` JSON body the proxies produce. -/
def errJson (msg : String) : Json := Json.obj [("error", Json.str msg)]

/-- Model of `Response.ok`. -/
def isOkStatus (status : Nat) : Bool := 200 ≤ status && status ≤ 299

/-- The `Status N` fallback used when a backend error body is empty. -/
def statusFallback (status : Nat) : String :=
  "Status " ++ String.mk (natChars status)

/-- Backend-outcome handling shared verbatim by the two analysis proxies:
a rejected fetch maps to 502 with the message, a non-ok status propagates
with the body text (or the fallback for an empty body), an ok status
parses the body as JSON, and a body that fails to parse maps to 502. -/
def proxyRelay (backend : BackendBehavior) : Nat × Json :=
  match backend with
  | .throwsMsg m => (502, errJson m)
  | .respond st body pmsg =>
    if !(isOkStatus st) then
      (st, errJson (if body ≠ "" then body else statusFallback st))
    else
      match jsonParseStr body with
      | some data => (200, data)
      | none => (502, errJson pmsg)

/-- Output of a category proxy invocation: HTTP status, JSON body, and the
`(shoe_id, file)` pair forwarded to the backend (`none` when no outbound
call was made). -/
structure CategoryOutput where
  status : Nat
  body : Json
  backendForm : Option (String × FileVal)
deriving DecidableEq, Repr

/-- Model of the category analysis route handler (`POST` in
`src/app/api/analyze/box/route.ts`): reject a falsy `shoe_id` or a missing
`file` with 400 before any outbound call, otherwise forward both and relay
the backend outcome. -/
def categoryPOST (shoe_id : Option String) (file : Option FileVal)
    (backend : BackendBehavior) : CategoryOutput :=
  match file, jsTruthyStr shoe_id with
  | some f, true =>
    let r := proxyRelay backend
    ⟨r.1, r.2, some (shoe_id.getD "", f)⟩
  | _, _ => ⟨400, errJson "shoe_id and file are required", none⟩

/-- Output of an aggregation proxy invocation: HTTP status, JSON body, and
the form fields forwarded to the backend (`none` when no outbound call was
made). -/
structure AggregationOutput where
  status : Nat
  body : Json
  backendForm : Option (List (String × String))
deriving DecidableEq, Repr

/-- Model of the aggregation route handler (`POST` of the combined route):
`shoe_id` is tested for truthiness, but the three percent fields only
against `null`; all four are forwarded stringified. -/
def aggregationPOST (shoe_id sneaker_percent box_percent video_percent : Option String)
    (backend : BackendBehavior) : AggregationOutput :=
  if !(jsTruthyStr shoe_id) || sneaker_percent.isNone || box_percent.isNone
      || video_percent.isNone then
    ⟨400,
      errJson "shoe_id, sneaker_percent, box_percent, and video_percent are required",
      none⟩
  else
    let r := proxyRelay backend
    ⟨r.1, r.2,
      some [("shoe_id", shoe_id.getD ""),
            ("sneaker_percent", sneaker_percent.getD ""),
            ("box_percent", box_percent.getD ""),
            ("video_percent", video_percent.getD "")]⟩

/-- Response of the health route. -/
structure GetOutput where
  status : Nat
  body : Json
deriving DecidableEq, Repr

/-- Backend outcome seen by the health route: a rejected fetch carries
`String(err)`; a response carries status and raw body, with
`parseFailString` the `String(err)` of the rejection of `res.json()` when
the body is not valid JSON. -/
inductive HealthBackend where
  | throwsErr (errString : String)
  | respond (status : Nat) (body : String) (parseFailString : String)
deriving DecidableEq, Repr

/-- Model of the health route handler (`GET` in
`src/app/api/health/route.ts`): pass the backend status and parsed JSON
body through; any exception maps to 502 with a structured error body. -/
def healthGET : HealthBackend → GetOutput
  | .throwsErr e =>
    ⟨502, Json.obj [("status", Json.str "error"), ("error", Json.str e)]⟩
  | .respond st body pf =>
    match jsonParseStr body with
    | some d => ⟨st, d⟩
    | none => ⟨502, Json.obj [("status", Json.str "error"), ("error", Json.str pf)]⟩

/-! The results page. -/

/-- The results page's populated state. -/
structure ResultsState where
  sneaker : Option Json
  box : Option Json
  video : Option Json
  combined : Option Json
deriving DecidableEq, Repr

/-- State before any parameter has been merged. -/
def emptyResults : ResultsState := ⟨none, none, none, none⟩

/-- Reading back one query parameter: `decodeURIComponent` then
`JSON.parse`; `none` is a thrown URIError or SyntaxError. -/
def decodeParam (s : String) : Option Json :=
  (decodeURIComponent s).bind jsonParseStr

/-- One parameter inside the grouped `try`: an absent or empty parameter is
skipped, a decodable one is merged, a decode failure throws (`none`). -/
def paramStep (st : ResultsState) (merge : ResultsState → Json → ResultsState)
    (p : Option String) : Option ResultsState :=
  match p with
  | none => some st
  | some s =>
    if s = "" then some st
    else
      match decodeParam s with
      | some j => some (merge st j)
      | none => none

/-- Model of the results page's loading effect: the four query parameters
are processed in order inside one `try` block; the first failure keeps the
updates already enqueued and drops every later parameter. -/
def loadResults (sneakerData boxData videoData combinedData : Option String) :
    ResultsState :=
  match paramStep emptyResults (fun st j => { st with sneaker := some j }) sneakerData with
  | none => emptyResults
  | some st1 =>
    match paramStep st1 (fun st j => { st with box := some j }) boxData with
    | none => st1
    | some st2 =>
      match paramStep st2 (fun st j => { st with video := some j }) videoData with
      | none => st2
      | some st3 =>
        match paramStep st3 (fun st j => { st with combined := some j }) combinedData with
        | none => st3
        | some st4 => st4

/-- The `results.combined?.verdict` read (optional chaining). -/
def combinedVerdictField (st : ResultsState) : Option Json :=
  st.combined.bind (fun c => jsProp c "verdict")

/-- Model of the headline `overallVerdict` derivation: two strict string
comparisons, then `verdict || "INCONCLUSIVE"`. -/
def overallVerdict (st : ResultsState) : Json :=
  match combinedVerdictField st with
  | some (Json.str s) =>
    if s = "AUTHENTIC" then Json.str "AUTHENTIC"
    else if s = "COUNTERFEIT" then Json.str "COUNTERFEIT"
    else if s ≠ "" then Json.str s
    else Json.str "INCONCLUSIVE"
  | some j => if jsTruthy j then j else Json.str "INCONCLUSIVE"
  | none => Json.str "INCONCLUSIVE"

/-! The upload form. -/

/-- The three upload slots. -/
inductive UploadKey where
  | sneaker
  | box
  | video
deriving DecidableEq, Repr

/-- Upload form state: file slots, per-category results, the combined
result, and the accumulated error text. -/
structure UploadFormState where
  uploads : UploadKey → Option FileVal
  results : UploadKey → Option Json
  combinedResult : Option Json
  errorText : String

/-- Model of `handleRemove`: null the slot's file, drop the slot's result,
and reset the error text to the empty string. -/
def handleRemove (st : UploadFormState) (k : UploadKey) : UploadFormState :=
  { st with
    uploads := fun k2 => if k2 = k then none else st.uploads k2,
    results := fun k2 => if k2 = k then none else st.results k2,
    errorText := "" }

/-! The submission flow. -/

mutual

/-- What `String(x)` prints for a JSON value. -/
def jsStringVal : Json → String
  | .null => "null"
  | .bool true => "true"
  | .bool false => "false"
  | .num n => String.mk (intChars n)
  | .str s => s
  | .arr xs => jsStringJoin xs
  | .obj _ => "[object Object]"

/-- `Array.prototype.toString`: elements joined by commas. -/
def jsStringJoin : List Json → String
  | [] => ""
  | [x] => jsStringElem x
  | x :: y :: xs => jsStringElem x ++ "," ++ jsStringJoin (y :: xs)

/-- One joined element: `null` prints as the empty string inside a join. -/
def jsStringElem : Json → String
  | .null => ""
  | .bool true => "true"
  | .bool false => "false"
  | .num n => String.mk (intChars n)
  | .str s => s
  | .arr xs => jsStringJoin xs
  | .obj _ => "[object Object]"

end

/-- What `String(x)` prints for a possibly-`undefined` field value. -/
def jsStringOfField : Option Json → String
  | none => "undefined"
  | some j => jsStringVal j

/-- Truthiness of the `error` field: the `if (data.error)` test. -/
def hasTruthyError (d : Json) : Bool := jsTruthyOpt (jsProp d "error")

/-- URL-parameter value of one stored result object. -/
def encodedParam (d : Json) : String := encodeURIComponent (stringifyJson d)

/-- The query-parameter value for one result slot: the stored value is
tested for truthiness, then stringified and URL-encoded; an unset or falsy
slot yields the empty string, which is then not appended. -/
def paramFor (d : Option Json) : String :=
  match d with
  | some j => if jsTruthy j then encodedParam j else ""
  | none => ""

/-- The query parameters built before navigation. -/
def buildParams (s b v c : Option Json) (model : String) : List (String × String) :=
  (if paramFor s ≠ "" then [("sneaker", paramFor s)] else []) ++
  (if paramFor b ≠ "" then [("box", paramFor b)] else []) ++
  (if paramFor v ≠ "" then [("video", paramFor v)] else []) ++
  (if paramFor c ≠ "" then [("combined", paramFor c)] else []) ++
  [("model", model)]

/-- Outcome of `submitUpload`: whether (and with which form fields) the
aggregation call is issued, and the navigation's query parameters (`none`
when an exception aborted the flow before `router.push`). -/
structure SubmitOutcome where
  combinedCall : Option (List (String × String))
  navigation : Option (List (String × String))
deriving DecidableEq, Repr

/-- Model of `submitUpload` from the point where the three category
responses' bodies have been read (all three slots were populated, so all
three calls were made). `none` for a body means its `r.json()` rejected;
`combinedData` is the body the aggregation call yields if issued. A `null`
body throws a TypeError at its `data.error` read, caught by the outer
catch. -/
def submitUpload (shoeId : String) (sData bData vData : Option Json)
    (combinedData : Option Json) (model : String) : SubmitOutcome :=
  match sData, bData, vData with
  | some ds, some db, some dv =>
    if ds = Json.null ∨ db = Json.null ∨ dv = Json.null then ⟨none, none⟩
    else
      let newS := if hasTruthyError ds then none else some ds
      let newB := if hasTruthyError db then none else some db
      let newV := if hasTruthyError dv then none else some dv
      if jsTruthyOpt newS && jsTruthyOpt newB && jsTruthyOpt newV then
        let form := [("shoe_id", shoeId),
                     ("sneaker_percent", jsStringOfField (jsProp ds "realness_percent")),
                     ("box_percent", jsStringOfField (jsProp db "realness_percent")),
                     ("video_percent", jsStringOfField (jsProp dv "realness_percent"))]
        match combinedData with
        | none => ⟨some form, none⟩
        | some dc =>
          if dc = Json.null then ⟨some form, none⟩
          else
            let newC := if hasTruthyError dc then none else some dc
            ⟨some form, some (buildParams newS newB newV newC model)⟩
      else ⟨none, some (buildParams newS newB newV none model)⟩
  | _, _, _ => ⟨none, none⟩

/-! The typed category result of the round-trip claim. -/

/-- Verdict of a category result. -/
inductive VerdictTag where
  | real
  | fake
deriving DecidableEq, Repr

/-- Display string of a verdict. -/
def verdictString : VerdictTag → String
  | .real => "REAL"
  | .fake => "FAKE"

/-- A well-typed category `AnalysisResult`: the two required fields plus
arbitrary extra fields (the interface's index signature). -/
structure AnalysisResult where
  verdict : VerdictTag
  realness_percent : Int
  extra : List (String × Json)

/-- The JSON object a category response carries for an `AnalysisResult`. -/
def arToJson (ar : AnalysisResult) : Json :=
  Json.obj (("verdict", Json.str (verdictString ar.verdict))
    :: ("realness_percent", Json.num ar.realness_percent) :: ar.extra)

/-- Well-formedness: extra fields are plain (ASCII strings, no characters
needing escapes) and do not shadow the two required keys. -/
def wellFormedAR (ar : AnalysisResult) : Bool :=
  plainObj ar.extra
  && !((ar.extra.map Prod.fst).contains "verdict")
  && !((ar.extra.map Prod.fst).contains "realness_percent")

/-- A category body the flow stores and counts toward the aggregation
guard: its `error` field is falsy and the body itself is truthy. -/
def categoryUsable (d : Json) : Bool := !(hasTruthyError d) && jsTruthy d

/-- The aggregation form the code builds from the three stored bodies. -/
def combinedFormOf (shoeId : String) (ds db dv : Json) : List (String × String) :=
  [("shoe_id", shoeId),
   ("sneaker_percent", jsStringOfField (jsProp ds "realness_percent")),
   ("box_percent", jsStringOfField (jsProp db "realness_percent")),
   ("video_percent", jsStringOfField (jsProp dv "realness_percent"))]

theorem string_mk_toList (s : String) : String.mk s.toList = s := rfl

theorem hexVal_hexDig : ∀ n < 16, hexVal (hexDig n) = some n := by decide

theorem uriUnreserved_ne_percent {c : Char} (h : uriUnreserved c = true) :
    ¬ c = '%' := by
  intro hc
  subst hc
  exact absurd h (by decide)

/-- Decoding inverts encoding on ASCII characters. -/
theorem decodeChars_encodeChars (cs : List Char) (h : ∀ c ∈ cs, c.toNat < 128) :
    decodeChars (encodeChars cs) = some cs := by
  induction cs with
  | nil => rfl
  | cons c cs ih =>
    have hc : c.toNat < 128 := h c (by simp)
    have ih' := ih (fun x hx => h x (by simp [hx]))
    by_cases hu : uriUnreserved c = true
    · rw [encodeChars, if_pos hu, decodeChars,
        if_neg (uriUnreserved_ne_percent hu), ih']
      rfl
    · rw [encodeChars, if_neg hu, decodeChars, if_pos rfl, decodeEscape]
      have hhi : c.toNat / 16 < 16 := by omega
      have hlo : c.toNat % 16 < 16 := by omega
      simp only [hexVal_hexDig _ hhi, hexVal_hexDig _ hlo]
      have hsum : c.toNat / 16 * 16 + c.toNat % 16 = c.toNat := by omega
      rw [hsum, if_pos hc, Char.ofNat_toNat, ih']
      rfl

theorem decodeURIComponent_encodeURIComponent (s : String)
    (h : ∀ c ∈ s.toList, c.toNat < 128) :
    decodeURIComponent (encodeURIComponent s) = some s := by
  unfold decodeURIComponent encodeURIComponent
  rw [show (String.mk (encodeChars s.toList)).toList = encodeChars s.toList from rfl,
    decodeChars_encodeChars _ h]
  rfl

theorem takeDigits_stop {rest : List Char} (h : noDigitStart rest) :
    takeDigits rest = ([], rest) := by
  cases rest with
  | nil => rfl
  | cons c cs =>
    unfold noDigitStart at h
    rw [takeDigits, if_neg (by simp [h])]

theorem digit_facts :
    ∀ d < 10, isDigitChar (Nat.digitChar d) = true ∧
      (Nat.digitChar d).toNat - 48 = d := by decide

theorem takeDigits_digits (ds : List Nat) (hds : ∀ d ∈ ds, d < 10)
    (rest : List Char) (hrest : noDigitStart rest) :
    takeDigits (ds.map Nat.digitChar ++ rest) = (ds, rest) := by
  induction ds with
  | nil => simpa using takeDigits_stop hrest
  | cons d ds ih =>
    have hd := hds d (by simp)
    rw [List.map_cons, List.cons_append, takeDigits,
      if_pos (digit_facts d hd).1, ih (fun x hx => hds x (by simp [hx]))]
    simp [(digit_facts d hd).2]

theorem digitsVal_reverse (L : List Nat) :
    digitsVal L.reverse = Nat.ofDigits 10 L := by
  induction L with
  | nil => rfl
  | cons d L ih =>
    rw [List.reverse_cons]
    unfold digitsVal at *
    rw [List.foldl_append, ih]
    simp [Nat.ofDigits_cons]
    ring

theorem natCharsAux_eq (fuel n : Nat) (h : n ≤ fuel) :
    natCharsAux fuel n = ((Nat.digits 10 n).map Nat.digitChar).reverse := by
  induction fuel generalizing n with
  | zero =>
    have hn : n = 0 := by omega
    subst hn
    simp [natCharsAux]
  | succ fuel ih =>
    cases n with
    | zero => simp [natCharsAux]
    | succ m =>
      rw [natCharsAux, ih ((m + 1) / 10) (by
        have := Nat.div_lt_self (Nat.succ_pos m) (by norm_num : 1 < 10)
        omega)]
      rw [Nat.digits_def' (by norm_num : 1 < 10) (Nat.succ_pos m)]
      simp [List.map_cons, List.reverse_cons]

theorem natChars_eq (n : Nat) :
    natChars n = (natDigitsBE n).map Nat.digitChar := by
  unfold natChars natDigitsBE
  by_cases h : n = 0
  · subst h
    rfl
  · rw [if_neg h, if_neg h, natCharsAux_eq n n le_rfl, List.map_reverse]

theorem natDigitsBE_lt (n : Nat) : ∀ d ∈ natDigitsBE n, d < 10 := by
  intro d hd
  unfold natDigitsBE at hd
  by_cases h : n = 0
  · simp [h] at hd
    omega
  · rw [if_neg h, List.mem_reverse] at hd
    exact Nat.digits_lt_base (by norm_num) hd

theorem digitsVal_natDigitsBE (n : Nat) : digitsVal (natDigitsBE n) = n := by
  unfold natDigitsBE
  by_cases h : n = 0
  · simp [h, digitsVal]
  · rw [if_neg h, digitsVal_reverse, Nat.ofDigits_digits]

theorem natDigitsBE_ne_nil (n : Nat) : natDigitsBE n ≠ [] := by
  unfold natDigitsBE
  by_cases h : n = 0
  · simp [h]
  · simp [h, Nat.digits_ne_nil_iff_ne_zero]

theorem isDigitChar_branch {c : Char} (h : isDigitChar c = true) :
    ¬ c = 'n' ∧ ¬ c = 't' ∧ ¬ c = 'f' ∧ ¬ c = '"' ∧ ¬ c = '-' := by
  refine ⟨?_, ?_, ?_, ?_, ?_⟩ <;> (intro hc; subst hc; exact absurd h (by decide))

theorem parseVal_natNum (fuel : Nat) (n : Nat) (rest : List Char)
    (hrest : noDigitStart rest) :
    parseVal (fuel + 1) (natChars n ++ rest) = some (.num n, rest) := by
  obtain ⟨d, ds, hds⟩ : ∃ d ds, natDigitsBE n = d :: ds := by
    cases hnn : natDigitsBE n with
    | nil => exact absurd hnn (natDigitsBE_ne_nil n)
    | cons d ds => exact ⟨d, ds, rfl⟩
  have hlt : ∀ x ∈ d :: ds, x < 10 := by
    rw [← hds]
    exact natDigitsBE_lt n
  have hd : isDigitChar (Nat.digitChar d) = true :=
    (digit_facts d (hlt d (by simp))).1
  obtain ⟨h1, h2, h3, h4, h5⟩ := isDigitChar_branch hd
  rw [natChars_eq, hds, List.map_cons, List.cons_append, parseVal,
    if_neg h1, if_neg h2, if_neg h3, if_neg h4, if_neg h5, if_pos hd]
  have ht : takeDigits (Nat.digitChar d :: (ds.map Nat.digitChar ++ rest)) =
      (d :: ds, rest) := by
    have := takeDigits_digits (d :: ds) hlt rest hrest
    simpa using this
  rw [ht]
  have hv : digitsVal (d :: ds) = n := by
    rw [← hds, digitsVal_natDigitsBE]
  rw [hv]

theorem parseVal_num (fuel : Nat) (n : Int) (rest : List Char)
    (hrest : noDigitStart rest) :
    parseVal (fuel + 1) (intChars n ++ rest) = some (.num n, rest) := by
  cases n with
  | ofNat m => exact parseVal_natNum fuel m rest hrest
  | negSucc m =>
    rw [show intChars (Int.negSucc m) = '-' :: natChars (m + 1) from rfl,
      List.cons_append, parseVal, if_neg (by decide), if_neg (by decide),
      if_neg (by decide), if_neg (by decide), if_pos rfl]
    obtain ⟨d, ds, hds⟩ : ∃ d ds, natDigitsBE (m + 1) = d :: ds := by
      cases hnn : natDigitsBE (m + 1) with
      | nil => exact absurd hnn (natDigitsBE_ne_nil (m + 1))
      | cons d ds => exact ⟨d, ds, rfl⟩
    have hlt : ∀ x ∈ d :: ds, x < 10 := by
      rw [← hds]
      exact natDigitsBE_lt (m + 1)
    rw [natChars_eq, hds, List.map_cons, parseNeg]
    have ht : takeDigits (Nat.digitChar d :: ds.map Nat.digitChar ++ rest) =
        (d :: ds, rest) := by
      have := takeDigits_digits (d :: ds) hlt rest hrest
      simpa using this
    rw [ht]
    have hv : digitsVal (d :: ds) = m + 1 := by
      rw [← hds, digitsVal_natDigitsBE]
    show some (Json.num (-(digitsVal (d :: ds) : Int)), rest) =
      some (Json.num (Int.negSucc m), rest)
    rw [hv, Int.negSucc_eq]
    norm_cast

theorem plainChar_spec {c : Char} (h : plainChar c = true) :
    32 ≤ c.toNat ∧ c.toNat < 128 ∧ ¬ c = '"' ∧ ¬ c = '\\' := by
  simp only [plainChar, Bool.and_eq_true, decide_eq_true_eq,
    Bool.not_eq_true', decide_eq_false_iff_not] at h
  exact ⟨h.1.1.1, h.1.1.2, h.1.2, h.2⟩

theorem escapeChar_plain {c : Char} (h : plainChar c = true) :
    escapeChar c = [c] := by
  obtain ⟨h1, _, h3, h4⟩ := plainChar_spec h
  have e8 : ¬ c = Char.ofNat 8 := by
    intro hc
    subst hc
    exact absurd h1 (by decide)
  have e9 : ¬ c = Char.ofNat 9 := by
    intro hc
    subst hc
    exact absurd h1 (by decide)
  have e10 : ¬ c = Char.ofNat 10 := by
    intro hc
    subst hc
    exact absurd h1 (by decide)
  have e12 : ¬ c = Char.ofNat 12 := by
    intro hc
    subst hc
    exact absurd h1 (by decide)
  have e13 : ¬ c = Char.ofNat 13 := by
    intro hc
    subst hc
    exact absurd h1 (by decide)
  rw [escapeChar, if_neg h3, if_neg h4, if_neg e8, if_neg e9, if_neg e10,
    if_neg e12, if_neg e13, if_neg (by omega)]

theorem escapeStr_plain {l : List Char} (h : ∀ c ∈ l, plainChar c = true) :
    escapeStr l = l := by
  induction l with
  | nil => rfl
  | cons c cs ih =>
    rw [escapeStr, escapeChar_plain (h c (by simp)),
      ih (fun x hx => h x (by simp [hx]))]
    rfl

theorem parseStrChars_plain (l : List Char) (h : ∀ c ∈ l, plainChar c = true)
    (rest : List Char) :
    parseStrChars (l ++ '"' :: rest) = some (l, rest) := by
  induction l with
  | nil => rw [List.nil_append, parseStrChars, if_pos rfl]
  | cons c cs ih =>
    obtain ⟨h1, _, h3, h4⟩ := plainChar_spec (h c (by simp))
    rw [List.cons_append, parseStrChars, if_neg h3, if_neg h4,
      if_neg (by omega), ih (fun x hx => h x (by simp [hx]))]
    rfl

theorem string_length_mk (l : List Char) : (String.mk l).length = l.length := rfl

theorem plainStr_spec {s : String} (h : plainStr s = true) :
    ∀ c ∈ s.toList, plainChar c = true := by
  simpa [plainStr, List.all_eq_true] using h

theorem jchars_head_ne_rbracket (v : Json) :
    ∃ c r, jchars v = c :: r ∧ ¬ c = ']' := by
  cases v with
  | null => exact ⟨'n', ['u', 'l', 'l'], by decide, by decide⟩
  | bool b =>
    cases b with
    | true => exact ⟨'t', ['r', 'u', 'e'], by decide, by decide⟩
    | false => exact ⟨'f', ['a', 'l', 's', 'e'], by decide, by decide⟩
  | num n =>
    cases n with
    | ofNat m =>
      obtain ⟨d, ds, hds⟩ : ∃ d ds, natDigitsBE m = d :: ds := by
        cases hnn : natDigitsBE m with
        | nil => exact absurd hnn (natDigitsBE_ne_nil m)
        | cons d ds => exact ⟨d, ds, rfl⟩
      have hd := (digit_facts d (natDigitsBE_lt m d (by rw [hds]; simp))).1
      refine ⟨Nat.digitChar d, ds.map Nat.digitChar, ?_, ?_⟩
      · rw [show jchars (Json.num (Int.ofNat m)) = natChars m from by
          simp [jchars, intChars], natChars_eq, hds, List.map_cons]
      · intro hc
        rw [hc] at hd
        exact absurd hd (by decide)
    | negSucc m => exact ⟨'-', natChars (m + 1), by simp [jchars, intChars], by decide⟩
  | str s => exact ⟨'"', escapeStr s.toList ++ ['"'], by simp [jchars], by decide⟩
  | arr vs =>
    cases vs with
    | nil => exact ⟨'[', [']'], by simp [jchars], by decide⟩
    | cons x xs => exact ⟨'[', jchars x ++ jcharsArrRest xs, by simp [jchars], by decide⟩
  | obj kvs =>
    cases kvs with
    | nil => exact ⟨lbrace, [rbrace], by simp [jchars], by decide⟩
    | cons kv kvs =>
      exact ⟨lbrace, jcharsMember kv ++ jcharsObjRest kvs, by simp [jchars], by decide⟩

theorem noDigitStart_arrRest (xs : List Json) (rest : List Char) :
    noDigitStart (jcharsArrRest xs ++ rest) := by
  cases xs with
  | nil =>
    rw [show jcharsArrRest [] ++ rest = ']' :: rest from by simp [jcharsArrRest]]
    exact (by decide : isDigitChar ']' = false)
  | cons x xs =>
    rw [show jcharsArrRest (x :: xs) ++ rest =
      ',' :: (jchars x ++ jcharsArrRest xs ++ rest) from by simp [jcharsArrRest]]
    exact (by decide : isDigitChar ',' = false)

theorem noDigitStart_objRest (kvs : List (String × Json)) (rest : List Char) :
    noDigitStart (jcharsObjRest kvs ++ rest) := by
  cases kvs with
  | nil =>
    rw [show jcharsObjRest [] ++ rest = rbrace :: rest from by simp [jcharsObjRest]]
    exact (by decide : isDigitChar rbrace = false)
  | cons kv kvs =>
    rw [show jcharsObjRest (kv :: kvs) ++ rest =
      ',' :: (jcharsMember kv ++ jcharsObjRest kvs ++ rest) from by simp [jcharsObjRest]]
    exact (by decide : isDigitChar ',' = false)

theorem jcharsArrRest_length_pos (xs : List Json) :
    1 ≤ (jcharsArrRest xs).length := by
  cases xs <;> simp [jcharsArrRest]

theorem jcharsObjRest_length_pos (kvs : List (String × Json)) :
    1 ≤ (jcharsObjRest kvs).length := by
  cases kvs <;> simp [jcharsObjRest]

mutual

theorem jfuel_le : ∀ v : Json, jfuel v ≤ (jchars v).length + 1
  | .null => by decide
  | .bool b => by cases b <;> decide
  | .num n => by simp [jfuel, jchars]
  | .str s => by simp [jfuel, jchars]
  | .arr [] => by simp [jfuel, jchars]
  | .arr (x :: xs) => by
    have h1 := jfuel_le x
    have h2 := jfuelA_le xs
    have h3 := jcharsArrRest_length_pos xs
    simp only [jfuel, jchars, List.length_cons, List.length_append]
    omega
  | .obj [] => by simp [jfuel, jchars]
  | .obj ((k, v) :: kvs) => by
    have h1 := jfuel_le v
    have h2 := jfuelO_le kvs
    have h3 := jcharsObjRest_length_pos kvs
    simp only [jfuel, jchars, jcharsMember, List.length_cons, List.length_append]
    omega

theorem jfuelA_le : ∀ xs : List Json, jfuelA xs ≤ (jcharsArrRest xs).length
  | [] => by simp [jfuelA, jcharsArrRest]
  | x :: xs => by
    have h1 := jfuel_le x
    have h2 := jfuelA_le xs
    have h3 := jcharsArrRest_length_pos xs
    simp only [jfuelA, jcharsArrRest, List.length_cons, List.length_append]
    omega

theorem jfuelO_le : ∀ kvs : List (String × Json), jfuelO kvs ≤ (jcharsObjRest kvs).length
  | [] => by simp [jfuelO, jcharsObjRest]
  | (k, v) :: kvs => by
    have h1 := jfuel_le v
    have h2 := jfuelO_le kvs
    have h3 := jcharsObjRest_length_pos kvs
    simp only [jfuelO, jcharsObjRest, jcharsMember, List.length_cons,
      List.length_append]
    omega

end

mutual

theorem parseVal_jchars : ∀ (v : Json) (rest : List Char) (fuel : Nat),
    jfuel v ≤ fuel → plainJson v = true → noDigitStart rest →
    parseVal fuel (jchars v ++ rest) = some (v, rest)
  | .null, rest, fuel, hf, _, _ => by
    have h1 : 1 ≤ fuel := by simpa [jfuel] using hf
    obtain ⟨f, rfl⟩ : ∃ f, fuel = f + 1 := ⟨fuel - 1, by omega⟩
    simp only [jchars]
    rfl
  | .bool true, rest, fuel, hf, _, _ => by
    have h1 : 1 ≤ fuel := by simpa [jfuel] using hf
    obtain ⟨f, rfl⟩ : ∃ f, fuel = f + 1 := ⟨fuel - 1, by omega⟩
    simp only [jchars]
    rfl
  | .bool false, rest, fuel, hf, _, _ => by
    have h1 : 1 ≤ fuel := by simpa [jfuel] using hf
    obtain ⟨f, rfl⟩ : ∃ f, fuel = f + 1 := ⟨fuel - 1, by omega⟩
    simp only [jchars]
    rfl
  | .num n, rest, fuel, hf, _, hrest => by
    have h1 : 1 ≤ fuel := by simpa [jfuel] using hf
    obtain ⟨f, rfl⟩ : ∃ f, fuel = f + 1 := ⟨fuel - 1, by omega⟩
    simp only [jchars]
    exact parseVal_num f n rest hrest
  | .str s, rest, fuel, hf, hp, _ => by
    have h1 : 1 ≤ fuel := by simpa [jfuel] using hf
    obtain ⟨f, rfl⟩ : ∃ f, fuel = f + 1 := ⟨fuel - 1, by omega⟩
    have hps : ∀ c ∈ s.toList, plainChar c = true :=
      plainStr_spec (by simpa [plainJson] using hp)
    simp only [jchars]
    rw [show ('"' :: (escapeStr s.toList ++ ['"'])) ++ rest =
      '"' :: (escapeStr s.toList ++ ('"' :: rest)) from by simp]
    rw [show parseVal (f + 1) ('"' :: (escapeStr s.toList ++ ('"' :: rest))) =
      (parseStrChars (escapeStr s.toList ++ ('"' :: rest))).map
        (fun p => (.str (String.mk p.1), p.2)) from rfl]
    rw [escapeStr_plain hps, parseStrChars_plain s.toList hps rest]
    rfl
  | .arr [], rest, fuel, hf, _, _ => by
    have h1 : 2 ≤ fuel := by simpa [jfuel] using hf
    obtain ⟨f, rfl⟩ : ∃ f, fuel = f + 2 := ⟨fuel - 2, by omega⟩
    simp only [jchars]
    rfl
  | .arr (x :: xs), rest, fuel, hf, hp, hrest => by
    simp only [jfuel] at hf
    obtain ⟨f, rfl⟩ : ∃ f, fuel = f + 2 := ⟨fuel - 2, by omega⟩
    have hx : jfuel x ≤ f := by omega
    have hxs : jfuelA xs ≤ f := by omega
    simp only [plainJson, plainArr, Bool.and_eq_true] at hp
    simp only [jchars]
    rw [show ('[' :: (jchars x ++ jcharsArrRest xs)) ++ rest =
      '[' :: (jchars x ++ (jcharsArrRest xs ++ rest)) from by simp]
    rw [show parseVal (f + 2) ('[' :: (jchars x ++ (jcharsArrRest xs ++ rest))) =
      parseArrBody (f + 1) (jchars x ++ (jcharsArrRest xs ++ rest)) from rfl]
    obtain ⟨c2, r2, hcons, hne⟩ := jchars_head_ne_rbracket x
    have hIH : parseVal f (c2 :: (r2 ++ (jcharsArrRest xs ++ rest))) =
        some (x, jcharsArrRest xs ++ rest) := by
      rw [← List.cons_append, ← hcons]
      exact parseVal_jchars x (jcharsArrRest xs ++ rest) f hx hp.1
        (noDigitStart_arrRest xs rest)
    have hR : parseArrRest f (jcharsArrRest xs ++ rest) = some (xs, rest) :=
      parseArrRest_jchars xs rest f hxs hp.2 hrest
    rw [hcons, List.cons_append, parseArrBody, if_neg hne, hIH]
    show (parseArrRest f (jcharsArrRest xs ++ rest)).map
      (fun p => (Json.arr (x :: p.1), p.2)) = some (Json.arr (x :: xs), rest)
    rw [hR]
    rfl
  | .obj [], rest, fuel, hf, _, _ => by
    have h1 : 2 ≤ fuel := by simpa [jfuel] using hf
    obtain ⟨f, rfl⟩ : ∃ f, fuel = f + 2 := ⟨fuel - 2, by omega⟩
    simp only [jchars]
    rfl
  | .obj ((k, v) :: kvs), rest, fuel, hf, hp, hrest => by
    simp only [jfuel] at hf
    obtain ⟨f, rfl⟩ : ∃ f, fuel = f + 2 := ⟨fuel - 2, by omega⟩
    have hm : 2 + jfuel v ≤ f := by omega
    have ho : jfuelO kvs ≤ f := by omega
    simp only [plainJson, plainObj, Bool.and_eq_true] at hp
    simp only [jchars]
    rw [show (lbrace :: (jcharsMember (k, v) ++ jcharsObjRest kvs)) ++ rest =
      lbrace :: (jcharsMember (k, v) ++ (jcharsObjRest kvs ++ rest)) from by simp]
    rw [show parseVal (f + 2)
        (lbrace :: (jcharsMember (k, v) ++ (jcharsObjRest kvs ++ rest))) =
      parseObjBody (f + 1) (jcharsMember (k, v) ++ (jcharsObjRest kvs ++ rest))
      from rfl]
    obtain ⟨mr, hm1⟩ : ∃ mr, jcharsMember (k, v) = '"' :: mr :=
      ⟨escapeStr k.toList ++ ('"' :: ':' :: jchars v), by simp [jcharsMember]⟩
    have hMem : parseMember f ('"' :: (mr ++ (jcharsObjRest kvs ++ rest))) =
        some ((k, v), jcharsObjRest kvs ++ rest) := by
      rw [← List.cons_append, ← hm1]
      exact parseMember_jchars (k, v) (jcharsObjRest kvs ++ rest) f hm hp.1.1 hp.1.2
        (noDigitStart_objRest kvs rest)
    have hRO : parseObjRest f (jcharsObjRest kvs ++ rest) = some (kvs, rest) :=
      parseObjRest_jchars kvs rest f ho hp.2 hrest
    rw [hm1, List.cons_append, parseObjBody, if_neg (by decide), hMem]
    show (parseObjRest f (jcharsObjRest kvs ++ rest)).map
      (fun p => (Json.obj (p.1.cons (k, v)), p.2)) = some (Json.obj ((k, v) :: kvs), rest)
    rw [hRO]
    rfl

theorem parseMember_jchars : ∀ (kv : String × Json) (rest : List Char) (fuel : Nat),
    2 + jfuel kv.2 ≤ fuel → plainStr kv.1 = true → plainJson kv.2 = true →
    noDigitStart rest →
    parseMember fuel (jcharsMember kv ++ rest) = some (kv, rest)
  | (k, v), rest, fuel, hf, hpk, hpv, hrest => by
    have hf2 : 2 + jfuel v ≤ fuel := hf
    obtain ⟨f, rfl⟩ : ∃ f, fuel = f + 2 := ⟨fuel - 2, by omega⟩
    have hv : jfuel v ≤ f := by omega
    have hps := plainStr_spec hpk
    rw [show jcharsMember (k, v) ++ rest =
      '"' :: (escapeStr k.toList ++ ('"' :: (':' :: (jchars v ++ rest))))
      from by simp [jcharsMember]]
    rw [show parseMember (f + 2)
        ('"' :: (escapeStr k.toList ++ ('"' :: (':' :: (jchars v ++ rest))))) =
      (match parseStrChars (escapeStr k.toList ++ ('"' :: (':' :: (jchars v ++ rest)))) with
       | some (kk, r) => parseMemberVal (f + 1) (String.mk kk) r
       | none => none) from rfl]
    rw [escapeStr_plain hps, parseStrChars_plain k.toList hps _]
    show (parseVal f (jchars v ++ rest)).map
      (fun p => ((String.mk k.toList, p.1), p.2)) = some ((k, v), rest)
    rw [parseVal_jchars v rest f hv hpv hrest]
    rfl

theorem parseArrRest_jchars : ∀ (xs : List Json) (rest : List Char) (fuel : Nat),
    jfuelA xs ≤ fuel → plainArr xs = true → noDigitStart rest →
    parseArrRest fuel (jcharsArrRest xs ++ rest) = some (xs, rest)
  | [], rest, fuel, hf, _, _ => by
    have h1 : 1 ≤ fuel := by simpa [jfuelA] using hf
    obtain ⟨f, rfl⟩ : ∃ f, fuel = f + 1 := ⟨fuel - 1, by omega⟩
    simp only [jcharsArrRest]
    rfl
  | x :: xs, rest, fuel, hf, hp, hrest => by
    simp only [jfuelA] at hf
    obtain ⟨f, rfl⟩ : ∃ f, fuel = f + 1 := ⟨fuel - 1, by omega⟩
    have hx : jfuel x ≤ f := by omega
    have hxs : jfuelA xs ≤ f := by omega
    simp only [plainArr, Bool.and_eq_true] at hp
    simp only [jcharsArrRest]
    rw [show (',' :: (jchars x ++ jcharsArrRest xs)) ++ rest =
      ',' :: (jchars x ++ (jcharsArrRest xs ++ rest)) from by simp]
    rw [show parseArrRest (f + 1) (',' :: (jchars x ++ (jcharsArrRest xs ++ rest))) =
      (match parseVal f (jchars x ++ (jcharsArrRest xs ++ rest)) with
       | some (v, r) => (parseArrRest f r).map (fun p => (v :: p.1, p.2))
       | none => none) from rfl]
    rw [parseVal_jchars x (jcharsArrRest xs ++ rest) f hx hp.1
      (noDigitStart_arrRest xs rest)]
    show (parseArrRest f (jcharsArrRest xs ++ rest)).map
      (fun p => (x :: p.1, p.2)) = some (x :: xs, rest)
    rw [parseArrRest_jchars xs rest f hxs hp.2 hrest]
    rfl

theorem parseObjRest_jchars : ∀ (kvs : List (String × Json)) (rest : List Char)
    (fuel : Nat), jfuelO kvs ≤ fuel → plainObj kvs = true → noDigitStart rest →
    parseObjRest fuel (jcharsObjRest kvs ++ rest) = some (kvs, rest)
  | [], rest, fuel, hf, _, _ => by
    have h1 : 1 ≤ fuel := by simpa [jfuelO] using hf
    obtain ⟨f, rfl⟩ : ∃ f, fuel = f + 1 := ⟨fuel - 1, by omega⟩
    simp only [jcharsObjRest]
    rfl
  | (k, v) :: kvs, rest, fuel, hf, hp, hrest => by
    simp only [jfuelO] at hf
    obtain ⟨f, rfl⟩ : ∃ f, fuel = f + 1 := ⟨fuel - 1, by omega⟩
    have hm : 2 + jfuel v ≤ f := by omega
    have ho : jfuelO kvs ≤ f := by omega
    simp only [plainObj, Bool.and_eq_true] at hp
    simp only [jcharsObjRest]
    rw [show (',' :: (jcharsMember (k, v) ++ jcharsObjRest kvs)) ++ rest =
      ',' :: (jcharsMember (k, v) ++ (jcharsObjRest kvs ++ rest)) from by simp]
    rw [show parseObjRest (f + 1)
        (',' :: (jcharsMember (k, v) ++ (jcharsObjRest kvs ++ rest))) =
      (match parseMember f (jcharsMember (k, v) ++ (jcharsObjRest kvs ++ rest)) with
       | some (kv, r) => (parseObjRest f r).map (fun p => (kv :: p.1, p.2))
       | none => none) from rfl]
    rw [parseMember_jchars (k, v) (jcharsObjRest kvs ++ rest) f hm hp.1.1 hp.1.2
      (noDigitStart_objRest kvs rest)]
    show (parseObjRest f (jcharsObjRest kvs ++ rest)).map
      (fun p => ((k, v) :: p.1, p.2)) = some ((k, v) :: kvs, rest)
    rw [parseObjRest_jchars kvs rest f ho hp.2 hrest]
    rfl

end

/-- The parser inverts the printer on plain values: the model of
`JSON.parse(JSON.stringify(v))`. -/
theorem jsonParseStr_stringifyJson (v : Json) (hp : plainJson v = true) :
    jsonParseStr (stringifyJson v) = some v := by
  unfold jsonParseStr stringifyJson
  rw [show (String.mk (jchars v)).toList = jchars v from rfl,
    show (String.mk (jchars v)).length = (jchars v).length from rfl]
  have h := parseVal_jchars v [] ((jchars v).length + 1)
    (le_trans (jfuel_le v) (by omega)) hp trivial
  rw [List.append_nil] at h
  rw [h]

/-! ASCII bounds for printed JSON, and field lookups on the round-trip
object. -/

theorem digitChar_ascii : ∀ d < 10, (Nat.digitChar d).toNat < 128 := by decide

theorem natChars_ascii (n : Nat) : ∀ c ∈ natChars n, c.toNat < 128 := by
  intro c hc
  rw [natChars_eq] at hc
  obtain ⟨d, hd, rfl⟩ := List.mem_map.mp hc
  exact digitChar_ascii d (natDigitsBE_lt n d hd)

theorem intChars_ascii (n : Int) : ∀ c ∈ intChars n, c.toNat < 128 := by
  intro c hc
  cases n with
  | ofNat m => exact natChars_ascii m c hc
  | negSucc m =>
    rw [show intChars (Int.negSucc m) = '-' :: natChars (m + 1) from rfl] at hc
    rcases List.mem_cons.mp hc with rfl | h
    · decide
    · exact natChars_ascii (m + 1) c h

mutual

theorem jchars_ascii : ∀ (v : Json), plainJson v = true → ∀ c ∈ jchars v, c.toNat < 128
  | .null, _ => by decide
  | .bool b, _ => by cases b <;> decide
  | .num n, _ => by
    rw [show jchars (Json.num n) = intChars n from by simp [jchars]]
    exact intChars_ascii n
  | .str s, hp => by
    intro c hc
    have hps := plainStr_spec (by simpa [plainJson] using hp)
    rw [show jchars (Json.str s) = '"' :: (escapeStr s.toList ++ ['"'])
        from by simp [jchars], escapeStr_plain hps] at hc
    rcases List.mem_cons.mp hc with rfl | h
    · decide
    · rcases List.mem_append.mp h with h2 | h2
      · exact (plainChar_spec (hps c h2)).2.1
      · simp only [List.mem_singleton] at h2
        subst h2
        decide
  | .arr [], _ => by decide
  | .arr (x :: xs), hp => by
    intro c hc
    simp only [plainJson, plainArr, Bool.and_eq_true] at hp
    rw [show jchars (Json.arr (x :: xs)) = '[' :: (jchars x ++ jcharsArrRest xs)
        from by simp [jchars]] at hc
    rcases List.mem_cons.mp hc with rfl | h
    · decide
    · rcases List.mem_append.mp h with h2 | h2
      · exact jchars_ascii x hp.1 c h2
      · exact jcharsArrRest_ascii xs hp.2 c h2
  | .obj [], _ => by decide
  | .obj (kv :: kvs), hp => by
    intro c hc
    simp only [plainJson, plainObj, Bool.and_eq_true] at hp
    rw [show jchars (Json.obj (kv :: kvs)) = lbrace :: (jcharsMember kv ++ jcharsObjRest kvs)
        from by simp [jchars]] at hc
    rcases List.mem_cons.mp hc with rfl | h
    · decide
    · rcases List.mem_append.mp h with h2 | h2
      · exact jcharsMember_ascii kv hp.1.1 hp.1.2 c h2
      · exact jcharsObjRest_ascii kvs hp.2 c h2

theorem jcharsArrRest_ascii : ∀ (xs : List Json), plainArr xs = true →
    ∀ c ∈ jcharsArrRest xs, c.toNat < 128
  | [], _ => by decide
  | x :: xs, hp => by
    intro c hc
    simp only [plainArr, Bool.and_eq_true] at hp
    rw [show jcharsArrRest (x :: xs) = ',' :: (jchars x ++ jcharsArrRest xs)
        from by simp [jcharsArrRest]] at hc
    rcases List.mem_cons.mp hc with rfl | h
    · decide
    · rcases List.mem_append.mp h with h2 | h2
      · exact jchars_ascii x hp.1 c h2
      · exact jcharsArrRest_ascii xs hp.2 c h2

theorem jcharsMember_ascii : ∀ (kv : String × Json), plainStr kv.1 = true →
    plainJson kv.2 = true → ∀ c ∈ jcharsMember kv, c.toNat < 128
  | (k, v), hk, hv => by
    intro c hc
    have hps := plainStr_spec hk
    rw [show jcharsMember (k, v) = '"' :: (escapeStr k.toList ++ ('"' :: ':' :: jchars v))
        from by simp [jcharsMember], escapeStr_plain hps] at hc
    rcases List.mem_cons.mp hc with rfl | h
    · decide
    · rcases List.mem_append.mp h with h2 | h2
      · exact (plainChar_spec (hps c h2)).2.1
      · rcases List.mem_cons.mp h2 with rfl | h3
        · decide
        · rcases List.mem_cons.mp h3 with rfl | h4
          · decide
          · exact jchars_ascii v hv c h4

theorem jcharsObjRest_ascii : ∀ (kvs : List (String × Json)), plainObj kvs = true →
    ∀ c ∈ jcharsObjRest kvs, c.toNat < 128
  | [], _ => by decide
  | kv :: kvs, hp => by
    intro c hc
    simp only [plainObj, Bool.and_eq_true] at hp
    rw [show jcharsObjRest (kv :: kvs) = ',' :: (jcharsMember kv ++ jcharsObjRest kvs)
        from by simp [jcharsObjRest]] at hc
    rcases List.mem_cons.mp hc with rfl | h
    · decide
    · rcases List.mem_append.mp h with h2 | h2
      · exact jcharsMember_ascii kv hp.1.1 hp.1.2 c h2
      · exact jcharsObjRest_ascii kvs hp.2 c h2

end

/-- Full pipeline for one parameter: URL-decode then parse inverts
stringify then URL-encode, for plain values. -/
theorem decodeParam_encodedParam (v : Json) (hp : plainJson v = true) :
    decodeParam (encodedParam v) = some v := by
  unfold decodeParam encodedParam
  rw [decodeURIComponent_encodeURIComponent (stringifyJson v)
    (by rw [show (stringifyJson v).toList = jchars v from rfl]
        exact jchars_ascii v hp)]
  exact jsonParseStr_stringifyJson v hp

theorem lookupField_of_absent {k : String} :
    ∀ (fs : List (String × Json)), (∀ kv ∈ fs, kv.1 ≠ k) → lookupField fs k = none := by
  intro fs
  induction fs with
  | nil => intro _; rfl
  | cons kv fs ih =>
    intro h
    obtain ⟨k1, v1⟩ := kv
    rw [lookupField, ih (fun x hx => h x (by simp [hx]))]
    exact if_neg (h (k1, v1) (by simp))

theorem lookupField_head {k : String} (x : Json) (fs : List (String × Json))
    (h : ∀ kv ∈ fs, kv.1 ≠ k) : lookupField ((k, x) :: fs) k = some x := by
  rw [lookupField, lookupField_of_absent fs h, if_pos rfl]

theorem lookupField_cons_found {k1 : String} {v1 : Json}
    {fs : List (String × Json)} {k : String} {y : Json}
    (h : lookupField fs k = some y) :
    lookupField ((k1, v1) :: fs) k = some y := by
  rw [lookupField, h]

theorem wellFormedAR_spec (ar : AnalysisResult) (h : wellFormedAR ar = true) :
    plainObj ar.extra = true ∧ (∀ kv ∈ ar.extra, kv.1 ≠ "verdict") ∧
      (∀ kv ∈ ar.extra, kv.1 ≠ "realness_percent") := by
  simp only [wellFormedAR, Bool.and_eq_true] at h
  obtain ⟨⟨h1, h2⟩, h3⟩ := h
  have hv : "verdict" ∉ ar.extra.map Prod.fst := by simpa using h2
  have hr : "realness_percent" ∉ ar.extra.map Prod.fst := by simpa using h3
  refine ⟨h1, ?_, ?_⟩
  · intro kv hkv hk
    exact hv (List.mem_map.mpr ⟨kv, hkv, hk⟩)
  · intro kv hkv hk
    exact hr (List.mem_map.mpr ⟨kv, hkv, hk⟩)

theorem arToJson_plain (ar : AnalysisResult) (h : wellFormedAR ar = true) :
    plainJson (arToJson ar) = true := by
  have hx := (wellFormedAR_spec ar h).1
  simp only [arToJson, plainJson, plainObj, Bool.and_eq_true]
  refine ⟨⟨by decide, ?_⟩, ⟨by decide, by decide⟩, hx⟩
  cases ar.verdict <;> decide

theorem arToJson_verdict (ar : AnalysisResult) (h : wellFormedAR ar = true) :
    jsProp (arToJson ar) "verdict" = some (Json.str (verdictString ar.verdict)) := by
  obtain ⟨_, hv, _⟩ := wellFormedAR_spec ar h
  unfold arToJson jsProp
  exact lookupField_head _ _ (by
    intro kv hkv
    rcases List.mem_cons.mp hkv with rfl | h2
    · show ("realness_percent" : String) ≠ "verdict"
      decide
    · exact hv kv h2)

theorem arToJson_percent (ar : AnalysisResult) (h : wellFormedAR ar = true) :
    jsProp (arToJson ar) "realness_percent" = some (Json.num ar.realness_percent) := by
  obtain ⟨_, _, hr⟩ := wellFormedAR_spec ar h
  unfold arToJson jsProp
  exact lookupField_cons_found (lookupField_head _ _ hr)

/-! Claim theorems. -/

/-- C2: a proxy request in which a required field is absent (category:
`shoe_id` or `file`; aggregation: `shoe_id` or any of the three percent
fields) yields status 400 with the structured error body and no outbound
backend call. -/
theorem c2_missing_field_400 :
    (∀ (sid : Option String) (f : Option FileVal) (b : BackendBehavior),
      sid = none ∨ f = none →
      categoryPOST sid f b = ⟨400, errJson "shoe_id and file are required", none⟩) ∧
    (∀ (sid p1 p2 p3 : Option String) (b : BackendBehavior),
      sid = none ∨ p1 = none ∨ p2 = none ∨ p3 = none →
      aggregationPOST sid p1 p2 p3 b =
        ⟨400,
          errJson "shoe_id, sneaker_percent, box_percent, and video_percent are required",
          none⟩) := by
  constructor
  · intro sid f b h
    rcases h with rfl | rfl
    · cases f <;> rfl
    · rfl
  · intro sid p1 p2 p3 b h
    rcases h with rfl | rfl | rfl | rfl <;> simp [aggregationPOST, jsTruthyStr]

/-- C2 witness: a category request without `shoe_id` and an aggregation
request without `box_percent`. -/
theorem c2_witness :
    categoryPOST none (some ⟨"f.jpg", [1], "image/jpeg"⟩) (.respond 200 "true" "m") =
      ⟨400, errJson "shoe_id and file are required", none⟩ ∧
    aggregationPOST (some "id") (some "90") none (some "80") (.throwsMsg "x") =
      ⟨400,
        errJson "shoe_id, sneaker_percent, box_percent, and video_percent are required",
        none⟩ :=
  ⟨c2_missing_field_400.1 none (some ⟨"f.jpg", [1], "image/jpeg"⟩) (.respond 200 "true" "m")
      (Or.inl rfl),
    c2_missing_field_400.2 (some "id") (some "90") none (some "80") (.throwsMsg "x")
      (Or.inr (Or.inr (Or.inl rfl)))⟩

/-- C5 counterexample: a 404 backend response whose body text is empty
yields the fallback error "Status 404", not the (empty) body text
verbatim, refuting the universally quantified propagation claim. -/
theorem c5_counterexample :
    categoryPOST (some "id") (some ⟨"a.jpg", [0], "image/jpeg"⟩) (.respond 404 "" "m") =
      ⟨404, errJson "Status 404", some ("id", ⟨"a.jpg", [0], "image/jpeg"⟩)⟩ ∧
    ("Status 404" : String) ≠ "" :=
  ⟨by decide, by decide⟩

/-- C5 amended: on a valid request with a non-success backend status, both
proxies return the backend status, with the body text in the error field
when it is non-empty and the fallback `Status N` when it is empty. -/
theorem c5_amended :
    (∀ (sid : String) (f : FileVal) (st : Nat) (body pmsg : String),
      sid ≠ "" → isOkStatus st = false →
      categoryPOST (some sid) (some f) (.respond st body pmsg) =
        ⟨st, errJson (if body ≠ "" then body else statusFallback st), some (sid, f)⟩) ∧
    (∀ (sid x y z : String) (st : Nat) (body pmsg : String),
      sid ≠ "" → isOkStatus st = false →
      aggregationPOST (some sid) (some x) (some y) (some z) (.respond st body pmsg) =
        ⟨st, errJson (if body ≠ "" then body else statusFallback st),
          some [("shoe_id", sid), ("sneaker_percent", x), ("box_percent", y),
            ("video_percent", z)]⟩) := by
  constructor
  · intro sid f st body pmsg hsid hst
    simp [categoryPOST, jsTruthyStr, hsid, proxyRelay, hst]
  · intro sid x y z st body pmsg hsid hst
    simp [aggregationPOST, jsTruthyStr, hsid, proxyRelay, hst]

/-- C5 witness: a 404 with the body "not found" propagates verbatim. -/
theorem c5_witness :
    categoryPOST (some "id") (some ⟨"a.jpg", [0], "image/jpeg"⟩)
        (.respond 404 "not found" "m") =
      ⟨404, errJson (if ("not found" : String) ≠ "" then "not found" else statusFallback 404),
        some ("id", ⟨"a.jpg", [0], "image/jpeg"⟩)⟩ ∧
    aggregationPOST (some "id") (some "90") (some "88") (some "95")
        (.respond 404 "not found" "m") =
      ⟨404, errJson (if ("not found" : String) ≠ "" then "not found" else statusFallback 404),
        some [("shoe_id", "id"), ("sneaker_percent", "90"), ("box_percent", "88"),
          ("video_percent", "95")]⟩ :=
  ⟨c5_amended.1 "id" ⟨"a.jpg", [0], "image/jpeg"⟩ 404 "not found" "m" (by decide) (by decide),
    c5_amended.2 "id" "90" "88" "95" 404 "not found" "m" (by decide) (by decide)⟩

/-- C6: on a valid request whose outbound backend call throws, both proxies
return status 502 with the thrown error's message in the error field. -/
theorem c6_transport_502 :
    (∀ (sid : String) (f : FileVal) (m : String), sid ≠ "" →
      categoryPOST (some sid) (some f) (.throwsMsg m) = ⟨502, errJson m, some (sid, f)⟩) ∧
    (∀ (sid x y z m : String), sid ≠ "" →
      aggregationPOST (some sid) (some x) (some y) (some z) (.throwsMsg m) =
        ⟨502, errJson m,
          some [("shoe_id", sid), ("sneaker_percent", x), ("box_percent", y),
            ("video_percent", z)]⟩) := by
  constructor
  · intro sid f m hsid
    simp [categoryPOST, jsTruthyStr, hsid, proxyRelay]
  · intro sid x y z m hsid
    simp [aggregationPOST, jsTruthyStr, hsid, proxyRelay]

/-- C6 witness: a network failure with message "fetch failed". -/
theorem c6_witness :
    categoryPOST (some "id") (some ⟨"a.jpg", [0], "image/jpeg"⟩) (.throwsMsg "fetch failed") =
      ⟨502, errJson "fetch failed", some ("id", ⟨"a.jpg", [0], "image/jpeg"⟩)⟩ ∧
    aggregationPOST (some "id") (some "90") (some "88") (some "95") (.throwsMsg "fetch failed") =
      ⟨502, errJson "fetch failed",
        some [("shoe_id", "id"), ("sneaker_percent", "90"), ("box_percent", "88"),
          ("video_percent", "95")]⟩ :=
  ⟨c6_transport_502.1 "id" ⟨"a.jpg", [0], "image/jpeg"⟩ "fetch failed" (by decide),
    c6_transport_502.2 "id" "90" "88" "95" "fetch failed" (by decide)⟩

/-- C8: removing a slot clears the stored file for that slot, clears the
stored analysis result for that category, and clears the error text. -/
theorem c8_remove_clears (st : UploadFormState) (k : UploadKey) :
    (handleRemove st k).uploads k = none ∧
    (handleRemove st k).results k = none ∧
    (handleRemove st k).errorText = "" :=
  ⟨by simp [handleRemove], by simp [handleRemove], rfl⟩

/-- C9: the aggregation validation is asymmetric: empty-string percent
fields pass (only `null` is rejected) and are forwarded verbatim, while an
empty-string `shoe_id` is falsy and rejected with 400 despite being
present. -/
theorem c9_asymmetric_validation :
    (∀ (sid x y z : String) (b : BackendBehavior), sid ≠ "" →
      (aggregationPOST (some sid) (some x) (some y) (some z) b).backendForm =
        some [("shoe_id", sid), ("sneaker_percent", x), ("box_percent", y),
          ("video_percent", z)]) ∧
    (∀ (p1 p2 p3 : Option String) (b : BackendBehavior),
      aggregationPOST (some "") p1 p2 p3 b =
        ⟨400,
          errJson "shoe_id, sneaker_percent, box_percent, and video_percent are required",
          none⟩) := by
  constructor
  · intro sid x y z b hsid
    simp [aggregationPOST, jsTruthyStr, hsid]
  · intro p1 p2 p3 b
    rfl

/-- C9 witness: empty-string percents are forwarded; an empty-string
shoe_id is rejected. -/
theorem c9_witness :
    (aggregationPOST (some "shoe1") (some "") (some "") (some "") (.throwsMsg "boom")).backendForm =
      some [("shoe_id", "shoe1"), ("sneaker_percent", ""), ("box_percent", ""),
        ("video_percent", "")] ∧
    aggregationPOST (some "") (some "1") (some "2") (some "3") (.throwsMsg "boom") =
      ⟨400,
        errJson "shoe_id, sneaker_percent, box_percent, and video_percent are required",
        none⟩ :=
  ⟨c9_asymmetric_validation.1 "shoe1" "" "" "" (.throwsMsg "boom") (by decide),
    c9_asymmetric_validation.2 (some "1") (some "2") (some "3") (.throwsMsg "boom")⟩

/-- C10: the health endpoint passes the backend status and body through
exactly when the body parses as JSON; an unparseable body (whatever the
status) and a transport failure both yield 502 with the structured
`status:error` body carrying the stringified exception. -/
theorem c10_health_passthrough :
    (∀ (st : Nat) (body pf : String) (d : Json), jsonParseStr body = some d →
      healthGET (.respond st body pf) = ⟨st, d⟩) ∧
    (∀ (st : Nat) (body pf : String), jsonParseStr body = none →
      healthGET (.respond st body pf) =
        ⟨502, Json.obj [("status", Json.str "error"), ("error", Json.str pf)]⟩) ∧
    (∀ e : String, healthGET (.throwsErr e) =
      ⟨502, Json.obj [("status", Json.str "error"), ("error", Json.str e)]⟩) := by
  refine ⟨?_, ?_, ?_⟩
  · intro st body pf d h
    simp only [healthGET]
    rw [h]
  · intro st body pf h
    simp only [healthGET]
    rw [h]
  · intro e
    rfl

/-- C10 witness: a parseable body passes through even with status 500; an
unparseable body yields 502 with the exception string. -/
theorem c10_witness :
    healthGET (.respond 500 "true" "SyntaxError") = ⟨500, Json.bool true⟩ ∧
    healthGET (.respond 200 "not json" "SyntaxError: Unexpected token") =
      ⟨502, Json.obj [("status", Json.str "error"),
        ("error", Json.str "SyntaxError: Unexpected token")]⟩ :=
  ⟨c10_health_passthrough.1 500 "true" "SyntaxError" (Json.bool true) (by decide),
    c10_health_passthrough.2.1 200 "not json" "SyntaxError: Unexpected token" (by decide)⟩

/-- C3 counterexample: an aggregation verdict of "MAYBE" (unrecognized and
non-empty) reaches the headline verbatim instead of falling back to
"INCONCLUSIVE", refuting the claimed fallback for every other verdict
string. -/
theorem c3_counterexample :
    overallVerdict (loadResults none none none (some (encodedParam
      (Json.obj [("verdict", Json.str "MAYBE"), ("realness_percent", Json.num 50)])))) =
      Json.str "MAYBE" ∧
    Json.str "MAYBE" ≠ Json.str "INCONCLUSIVE" :=
  ⟨by decide, by decide⟩

/-- C3 amended: the headline maps the two recognized verdict strings to
themselves and falls back to "INCONCLUSIVE" when the combined payload is
absent, its verdict field is absent, or the verdict is falsy; any other
truthy verdict value is displayed verbatim. -/
theorem c3_amended (st : ResultsState) :
    (combinedVerdictField st = some (Json.str "AUTHENTIC") →
      overallVerdict st = Json.str "AUTHENTIC") ∧
    (combinedVerdictField st = some (Json.str "COUNTERFEIT") →
      overallVerdict st = Json.str "COUNTERFEIT") ∧
    (combinedVerdictField st = none → overallVerdict st = Json.str "INCONCLUSIVE") ∧
    (∀ j, combinedVerdictField st = some j → jsTruthy j = false →
      overallVerdict st = Json.str "INCONCLUSIVE") ∧
    (∀ j, combinedVerdictField st = some j → jsTruthy j = true →
      j ≠ Json.str "AUTHENTIC" → j ≠ Json.str "COUNTERFEIT" →
      overallVerdict st = j) := by
  refine ⟨?_, ?_, ?_, ?_, ?_⟩
  · intro h
    simp [overallVerdict, h]
  · intro h
    simp [overallVerdict, h]
  · intro h
    simp [overallVerdict, h]
  · intro j h hj
    cases j with
    | str s =>
      have hs : s = "" := by simpa [jsTruthy] using hj
      subst hs
      simp [overallVerdict, h]
    | null => simp [overallVerdict, h, jsTruthy]
    | bool b => simp_all [overallVerdict, jsTruthy]
    | num n => simp_all [overallVerdict, jsTruthy]
    | arr xs => simp_all [overallVerdict, jsTruthy]
    | obj kvs => simp_all [overallVerdict, jsTruthy]
  · intro j h hj hA hC
    cases j with
    | str s =>
      have h1 : ¬ s = "AUTHENTIC" := fun hc => hA (by rw [hc])
      have h2 : ¬ s = "COUNTERFEIT" := fun hc => hC (by rw [hc])
      have h3 : ¬ s = "" := by simpa [jsTruthy] using hj
      simp [overallVerdict, h, h1, h2, h3]
    | null => simp_all [overallVerdict, jsTruthy]
    | bool b => simp_all [overallVerdict, jsTruthy]
    | num n => simp_all [overallVerdict, jsTruthy]
    | arr xs => simp_all [overallVerdict, jsTruthy]
    | obj kvs => simp_all [overallVerdict, jsTruthy]

/-- C3 witness: a combined payload with verdict "AUTHENTIC" yields the
"AUTHENTIC" headline through the page's decode path. -/
theorem c3_witness :
    overallVerdict (loadResults none none none (some (encodedParam
      (Json.obj [("verdict", Json.str "AUTHENTIC"), ("realness_percent", Json.num 91)])))) =
      Json.str "AUTHENTIC" :=
  (c3_amended (loadResults none none none (some (encodedParam
    (Json.obj [("verdict", Json.str "AUTHENTIC"), ("realness_percent", Json.num 91)]))))).1
    (by decide)

/-- C7 counterexample: with a malformed box parameter, the individually
valid video parameter (and the combined one) is dropped as well; only the
sneaker parameter, processed before the failure, is kept. This refutes the
claim that one malformed parameter drops only its own contribution. -/
theorem c7_counterexample :
    decodeParam (encodedParam (Json.obj [("verdict", Json.str "REAL"),
        ("realness_percent", Json.num 95)])) =
      some (Json.obj [("verdict", Json.str "REAL"), ("realness_percent", Json.num 95)]) ∧
    loadResults
        (some (encodedParam (Json.obj [("verdict", Json.str "REAL"),
          ("realness_percent", Json.num 92)])))
        (some "x")
        (some (encodedParam (Json.obj [("verdict", Json.str "REAL"),
          ("realness_percent", Json.num 95)])))
        none =
      ⟨some (Json.obj [("verdict", Json.str "REAL"), ("realness_percent", Json.num 92)]),
        none, none, none⟩ :=
  ⟨by decide, by decide⟩

/-- C7 amended: decoding is grouped in one try block over the order
sneaker, box, video, combined: the first parameter that fails to decode
keeps every parameter already populated before it and drops itself and all
later parameters, whether or not those are individually valid. -/
theorem c7_amended :
    (∀ (s b v c : String) (js : Json),
      s ≠ "" → decodeParam s = some js → b ≠ "" → decodeParam b = none →
      loadResults (some s) (some b) (some v) (some c) =
        ⟨some js, none, none, none⟩) ∧
    (∀ (s c : String) (js : Json),
      s ≠ "" → decodeParam s = some js → c ≠ "" → decodeParam c = none →
      loadResults (some s) none none (some c) = ⟨some js, none, none, none⟩) := by
  constructor
  · intro s b v c js hs hjs hb hbn
    simp [loadResults, paramStep, hs, hjs, hb, hbn, emptyResults]
  · intro s c js hs hjs hc hcn
    simp [loadResults, paramStep, hs, hjs, hc, hcn, emptyResults]

/-- C7 witness: a valid sneaker parameter followed by the malformed "x" in
the box slot keeps the sneaker result only. -/
theorem c7_witness :
    loadResults
        (some (encodedParam (Json.obj [("verdict", Json.str "REAL"),
          ("realness_percent", Json.num 92)])))
        (some "x") (some "y") (some "z") =
      ⟨some (Json.obj [("verdict", Json.str "REAL"), ("realness_percent", Json.num 92)]),
        none, none, none⟩ :=
  c7_amended.1 (encodedParam (Json.obj [("verdict", Json.str "REAL"),
      ("realness_percent", Json.num 92)]))
    "x" "y" "z"
    (Json.obj [("verdict", Json.str "REAL"), ("realness_percent", Json.num 92)])
    (by decide) (by decide) (by decide) (by decide)

/-- C4: serializing a well-formed AnalysisResult into the results URL
(JSON.stringify, then encodeURIComponent) and reading it back on the
results page (decodeURIComponent, then JSON.parse) reproduces the original
object's verdict and realness_percent fields exactly. -/
theorem c4_roundtrip (ar : AnalysisResult) (h : wellFormedAR ar = true) :
    ∃ j, decodeParam (encodedParam (arToJson ar)) = some j ∧
      jsProp j "verdict" = some (Json.str (verdictString ar.verdict)) ∧
      jsProp j "realness_percent" = some (Json.num ar.realness_percent) :=
  ⟨arToJson ar, decodeParam_encodedParam (arToJson ar) (arToJson_plain ar h),
    arToJson_verdict ar h, arToJson_percent ar h⟩

/-- C4 witness: the round trip at a concrete result object with an extra
field. -/
theorem c4_roundtrip_witness :
    wellFormedAR ⟨.real, 95, [("confidence", Json.str "high")]⟩ = true ∧
    ∃ j, decodeParam (encodedParam (arToJson
        ⟨.real, 95, [("confidence", Json.str "high")]⟩)) = some j ∧
      jsProp j "verdict" = some (Json.str "REAL") ∧
      jsProp j "realness_percent" = some (Json.num 95) :=
  ⟨by decide, c4_roundtrip ⟨.real, 95, [("confidence", Json.str "high")]⟩ (by decide)⟩

theorem categoryUsable_eq_true {d : Json} :
    categoryUsable d = true ↔ hasTruthyError d = false ∧ jsTruthy d = true := by
  simp [categoryUsable, Bool.and_eq_true, Bool.not_eq_true']

theorem jsTruthyOpt_errGate (d : Json) :
    jsTruthyOpt (if hasTruthyError d then none else some d) = categoryUsable d := by
  by_cases h : hasTruthyError d = true
  · simp [h, jsTruthyOpt, categoryUsable]
  · rw [Bool.not_eq_true] at h
    simp [h, jsTruthyOpt, categoryUsable]

theorem categoryUsable_null : categoryUsable Json.null = false := by decide

theorem submitUpload_combinedCall (shoeId : String) (ds db dv : Json)
    (cd : Option Json) (model : String) :
    (submitUpload shoeId (some ds) (some db) (some dv) cd model).combinedCall =
      if categoryUsable ds && categoryUsable db && categoryUsable dv then
        some (combinedFormOf shoeId ds db dv)
      else none := by
  simp only [submitUpload]
  by_cases hnull : ds = Json.null ∨ db = Json.null ∨ dv = Json.null
  · rw [if_pos hnull]
    have hg : (categoryUsable ds && categoryUsable db && categoryUsable dv) = false := by
      rcases hnull with rfl | rfl | rfl <;> simp [categoryUsable_null]
    rw [hg]
    rfl
  · rw [if_neg hnull]
    simp only [jsTruthyOpt_errGate]
    cases hg : (categoryUsable ds && categoryUsable db && categoryUsable dv) with
    | false => rfl
    | true =>
      cases cd with
      | none => simp [combinedFormOf]
      | some dc =>
        by_cases hdc : dc = Json.null
        · simp [hdc, combinedFormOf]
        · simp [hdc, combinedFormOf]

theorem submitUpload_navigation_of_guard_false (shoeId : String) (ds db dv : Json)
    (cd : Option Json) (model : String)
    (hg : (categoryUsable ds && categoryUsable db && categoryUsable dv) = false) :
    (submitUpload shoeId (some ds) (some db) (some dv) cd model).navigation = none ∨
    (submitUpload shoeId (some ds) (some db) (some dv) cd model).navigation =
      some (buildParams
        (if hasTruthyError ds then none else some ds)
        (if hasTruthyError db then none else some db)
        (if hasTruthyError dv then none else some dv) none model) := by
  simp only [submitUpload]
  by_cases hnull : ds = Json.null ∨ db = Json.null ∨ dv = Json.null
  · rw [if_pos hnull]
    exact Or.inl rfl
  · rw [if_neg hnull]
    simp only [jsTruthyOpt_errGate]
    rw [hg]
    exact Or.inr rfl

theorem combined_not_mem_buildParams (s b v : Option Json) (model q : String) :
    ("combined", q) ∉ buildParams s b v none model := by
  intro hmem
  simp only [buildParams, List.mem_append] at hmem
  rcases hmem with ((((h | h) | h) | h) | h)
  · by_cases hc : paramFor s ≠ "" <;> simp [hc] at h
  · by_cases hc : paramFor b ≠ "" <;> simp [hc] at h
  · by_cases hc : paramFor v ≠ "" <;> simp [hc] at h
  · simp [paramFor] at h
  · simp at h

/-- C1 amended: the aggregation call is issued exactly when each of the
three category bodies is truthy with a falsy (absent or empty) `error`
field; when issued it carries the three stringified realness percentages
read verbatim off the three bodies; and whenever some category body has a
truthy `error` field, no aggregation call is made and no `combined`
parameter reaches the results URL. -/
theorem c1_amended (shoeId : String) (ds db dv : Json) (cd : Option Json)
    (model : String) :
    ((submitUpload shoeId (some ds) (some db) (some dv) cd model).combinedCall.isSome = true ↔
      (hasTruthyError ds = false ∧ jsTruthy ds = true) ∧
      (hasTruthyError db = false ∧ jsTruthy db = true) ∧
      (hasTruthyError dv = false ∧ jsTruthy dv = true)) ∧
    (∀ form,
      (submitUpload shoeId (some ds) (some db) (some dv) cd model).combinedCall = some form →
      form = combinedFormOf shoeId ds db dv) ∧
    ((hasTruthyError ds = true ∨ hasTruthyError db = true ∨ hasTruthyError dv = true) →
      (submitUpload shoeId (some ds) (some db) (some dv) cd model).combinedCall = none ∧
      ∀ ps, (submitUpload shoeId (some ds) (some db) (some dv) cd model).navigation = some ps →
        ∀ q, ("combined", q) ∉ ps) := by
  refine ⟨?_, ?_, ?_⟩
  · rw [submitUpload_combinedCall]
    cases hg : (categoryUsable ds && categoryUsable db && categoryUsable dv) with
    | true =>
      simp only [Bool.and_eq_true, categoryUsable_eq_true] at hg
      simp [hg.1.1, hg.1.2, hg.2]
    | false =>
      constructor
      · intro hc
        simp at hc
      · rintro ⟨⟨e1, t1⟩, ⟨e2, t2⟩, ⟨e3, t3⟩⟩
        have hT : (categoryUsable ds && categoryUsable db && categoryUsable dv) = true := by
          simp [Bool.and_eq_true, categoryUsable_eq_true, e1, t1, e2, t2, e3, t3]
        exact absurd hT (by simp [hg])
  · intro form h
    rw [submitUpload_combinedCall] at h
    by_cases hg : (categoryUsable ds && categoryUsable db && categoryUsable dv) = true
    · rw [if_pos hg] at h
      exact (Option.some.inj h).symm
    · rw [if_neg hg] at h
      exact absurd h (by simp)
  · intro herr
    have hg : (categoryUsable ds && categoryUsable db && categoryUsable dv) = false := by
      rcases herr with h | h | h <;> simp [categoryUsable, h]
    constructor
    · rw [submitUpload_combinedCall, if_neg (by simp [hg])]
    · intro ps hps q
      rcases submitUpload_navigation_of_guard_false shoeId ds db dv cd model hg with hnav | hnav
      · rw [hnav] at hps
        exact absurd hps (by simp)
      · rw [hnav] at hps
        rw [← Option.some.inj hps]
        exact combined_not_mem_buildParams _ _ _ model q

/-- C1 counterexample: a box body carrying an `error` field with an empty
string still counts as usable (`if (data.error)` tests truthiness), so the
aggregation call is issued although one category "returned an error
field", refuting the claim as stated. -/
theorem c1_counterexample :
    (submitUpload "yeezy_350_zebra"
        (some (Json.obj [("verdict", Json.str "REAL"), ("realness_percent", Json.num 92)]))
        (some (Json.obj [("error", Json.str ""), ("verdict", Json.str "REAL"),
          ("realness_percent", Json.num 88)]))
        (some (Json.obj [("verdict", Json.str "REAL"), ("realness_percent", Json.num 95)]))
        (some (Json.obj [("verdict", Json.str "AUTHENTIC"), ("realness_percent", Json.num 91)]))
        "Yeezy 350 Zebra").combinedCall.isSome = true ∧
    jsProp (Json.obj [("error", Json.str ""), ("verdict", Json.str "REAL"),
        ("realness_percent", Json.num 88)]) "error" = some (Json.str "") :=
  ⟨by decide, by decide⟩

/-- C1 witness: a box body with a non-empty error suppresses the
aggregation call. -/
theorem c1_witness :
    (submitUpload "jordan1_lost_found"
        (some (Json.obj [("verdict", Json.str "REAL"), ("realness_percent", Json.num 92)]))
        (some (Json.obj [("error", Json.str "label not found")]))
        (some (Json.obj [("verdict", Json.str "REAL"), ("realness_percent", Json.num 95)]))
        none "Jordan 1 Lost & Found").combinedCall = none :=
  ((c1_amended "jordan1_lost_found"
      (Json.obj [("verdict", Json.str "REAL"), ("realness_percent", Json.num 92)])
      (Json.obj [("error", Json.str "label not found")])
      (Json.obj [("verdict", Json.str "REAL"), ("realness_percent", Json.num 95)])
      none "Jordan 1 Lost & Found").2.2
    (Or.inr (Or.inl (by decide)))).1

end Threads
